import Mathlib

/-!
Verification development for `pi_server.py`, a radar-style telemetry server:
a servo sweeps over [0, 180] degrees in 5-degree steps while an HC-SR04
ultrasonic sensor is read, and each (angle, distance) reading is pushed as a
JSON message over a WebSocket connection.

The Python source is shallowly embedded as follows:
- the local variables `angle` / `direction` of `sweep_sensor` become a
  `SweepState`, and the per-iteration update becomes `sweepUpdate`;
- Python floats become rationals; `round(x, 2)` becomes `round2`;
- the busy-wait loops of `get_distance` poll an abstract echo-line trace
  `r : Nat -> Bool` and a wall clock `clock : Nat -> Rat`, with an explicit
  fuel bound standing in for elapsed polling steps (nontermination of the
  source loop shows up as the model returning `none` for every fuel);
- the connection loop becomes a trace of events (`Event`), the WebSocket
  send failure becomes a `sendFails` oracle, and the `try/except` of
  `handler` becomes a total function on the raised exception.
-/

/-- Sweep state: the local variables `angle` and `direction` of `sweep_sensor`
(`direction` is `1` for forward, `-1` for backward). -/
structure SweepState where
  angle : Int
  direction : Int
  deriving DecidableEq, Repr

/-- `step = 5` degrees per step, from `sweep_sensor`. -/
def step : Int := 5

/-- Initial sweep state: `angle = 0`, `direction = 1`. -/
def initState : SweepState := { angle := 0, direction := 1 }

/-- One execution of the angle-adjustment block at the bottom of the
`while True` loop of `sweep_sensor`:
`angle += step * direction`, then clamp at 180 (reversing to -1) or
at 0 (reversing to 1). -/
def sweepUpdate (s : SweepState) : SweepState :=
  let a := s.angle + step * s.direction
  if a ≥ 180 then { angle := 180, direction := -1 }
  else if a ≤ 0 then { angle := 0, direction := 1 }
  else { angle := a, direction := s.direction }

/-- The sweep state at the start of iteration `n` of the loop. -/
def stateAt (n : Nat) : SweepState := sweepUpdate^[n] initState

/-- The angle assigned to the servo (`servo.angle = angle`) at iteration `n`. -/
def angleAt (n : Nat) : Int := (stateAt n).angle

/-- Closed form of the sweep state over one 72-iteration period. -/
def stateClosedM (m : Nat) : SweepState :=
  if m < 36 then { angle := 5 * (m : Int), direction := 1 }
  else { angle := 5 * ((72 : Int) - (m : Int)), direction := -1 }

/-- Closed form of the emitted angle over one 72-iteration period. -/
def angleClosed (m : Nat) : Int :=
  if m < 36 then 5 * (m : Int) else 5 * ((72 : Int) - (m : Int))

/-- Model of Python `round(x, 2)`: round `x` to two decimal places. Python
rounds ties to even while Mathlib `round` rounds ties up; the two agree off
exact ties, and no value in this development sits on a tie. -/
def round2 (q : Rat) : Rat := ((round (q * 100) : Int) : Rat) / 100

/-- One busy-wait loop of `get_distance`: starting at poll index `start`,
return the first index at which the echo line `r` reads `v`, polling at most
`fuel` times. `none` models the loop still spinning after `fuel` polls. -/
def findEdge (r : Nat → Bool) (v : Bool) : Nat → Nat → Option Nat
  | _, 0 => none
  | start, fuel + 1 => if r start = v then some start else findEdge r v (start + 1) fuel

/-- Model of `get_distance`: `r k` is the value of the `k`-th
`GPIO.gpio_read(h, ECHO)` call and `clock k` the value of the `k`-th
`time.time()` call. The first `while` loop leaves `pulse_start = clock i`
where `i` is the first poll reading high; the second leaves
`pulse_end = clock j` where `j` is the first poll after `i` reading low.
The result is `round(pulse_duration * 17150, 2)`; `none` models a call that
is still blocked in a busy-wait after `fuel` polls. -/
def get_distance (r : Nat → Bool) (clock : Nat → Rat) (fuel : Nat) : Option Rat :=
  match findEdge r true 0 fuel with
  | none => none
  | some i =>
    match findEdge r false (i + 1) fuel with
    | none => none
    | some j => some (round2 ((clock j - clock i) * 17150))

/-- JSON values appearing in the outbound messages. -/
inductive JsonVal where
  | int (n : Int)
  | num (q : Rat)
  deriving DecidableEq, Repr

/-- A JSON object, as an ordered list of key/value pairs
(the argument of `json.dumps`). -/
abbrev Message := List (String × JsonVal)

/-- The dictionary built each iteration:
`{"angle": angle, "distance": dist}`. -/
def mkMessage (angle : Int) (dist : Rat) : Message :=
  [("angle", JsonVal.int angle), ("distance", JsonVal.num dist)]

/-- Observable actions of one iteration of the `while True` loop of
`sweep_sensor`. -/
inductive Event where
  | setServo (a : Int)
  | readDist
  | send (m : Message)
  | sleep
  deriving DecidableEq, Repr

/-- Exceptions that can reach the `try` block of `handler`:
`websockets.ConnectionClosed`, or anything else. -/
inductive Exc where
  | connectionClosed
  | other
  deriving DecidableEq, Repr

/-- The `while True` loop of `sweep_sensor`, as an event trace. `durations n`
is the pulse duration measured by the `get_distance` call of iteration `n`,
and `sendFails n` tells whether the `websocket.send` of iteration `n` raises
`ConnectionClosed`. Returns the trace of up to `fuel` iterations together
with whether `ConnectionClosed` was raised. A failing send produces no
`send` event and ends the loop at once; otherwise the iteration is
`servo.angle = angle`, `get_distance()`, `send(json)`, `sleep(0.1)` and the
state advances by `sweepUpdate`. -/
def sweepRun (durations : Nat → Rat) (sendFails : Nat → Bool) :
    SweepState → Nat → Nat → List Event × Bool
  | _, _, 0 => ([], false)
  | s, n, fuel + 1 =>
    if sendFails n then ([Event.setServo s.angle, Event.readDist], true)
    else
      let rest := sweepRun durations sendFails (sweepUpdate s) (n + 1) fuel
      (Event.setServo s.angle :: Event.readDist ::
        Event.send (mkMessage s.angle (round2 (durations n * 17150))) ::
        Event.sleep :: rest.1, rest.2)

/-- The events of one complete loop iteration at state `s`, iteration `n`:
set the servo angle, read the distance, send the serialized reading, sleep. -/
def iterBlock (durations : Nat → Rat) (n : Nat) (s : SweepState) : List Event :=
  [Event.setServo s.angle, Event.readDist,
   Event.send (mkMessage s.angle (round2 (durations n * 17150))), Event.sleep]

/-- The concatenation of `count` complete iteration blocks starting at state
`s` and iteration index `n`. -/
def blocksFrom (durations : Nat → Rat) : SweepState → Nat → Nat → List Event
  | _, _, 0 => []
  | s, n, count + 1 =>
      iterBlock durations n s ++ blocksFrom durations (sweepUpdate s) (n + 1) count

/-- The sweep state after `k` updates starting from `s`. -/
def stateFrom (s : SweepState) (k : Nat) : SweepState := sweepUpdate^[k] s

/-- The exception (if any) escaping `sweep_sensor` within `fuel` iterations:
the only way out of its `while True` loop is a `ConnectionClosed` raised by
`websocket.send`. -/
def sweepExc (durations : Nat → Rat) (sendFails : Nat → Bool) (fuel : Nat) : Option Exc :=
  if (sweepRun durations sendFails initState 0 fuel).2 then some Exc.connectionClosed else none

/-- Model of `handler`: prints `"Client connected"`, runs `sweep_sensor`
inside `try`, and catches exactly `websockets.ConnectionClosed`, printing
`"Client disconnected"`. Input: the exception escaping the `try` body (if
any); output: the lines printed and the exception propagated to the caller
(if any). -/
def handlerExc (res : Option Exc) : List String × Option Exc :=
  match res with
  | none => (["Client connected"], none)
  | some Exc.connectionClosed => (["Client connected", "Client disconnected"], none)
  | some e => (["Client connected"], some e)

/-- The environment a single connection runs against: its measured pulse
durations, its send-failure oracle, and the iteration fuel. -/
abbrev Conn := (Nat → Rat) × (Nat → Bool) × Nat

/-- The event trace of one connection: `handler` always invokes
`sweep_sensor(websocket)`, whose local state starts at
`angle = 0, direction = 1`. -/
def connTrace (c : Conn) : List Event :=
  (sweepRun c.1 c.2.1 initState 0 c.2.2).1

/-- The traces of a sequence of accepted connections, each handled by a
fresh `handler` call. -/
def serverTraces (conns : List Conn) : List (List Event) :=
  conns.map connTrace

/-- The messages actually sent over the socket in a trace. -/
def sentMessages (t : List Event) : List Message :=
  t.filterMap fun e =>
    match e with
    | Event.send m => some m
    | _ => none

/-- The process-global hardware handles: the lgpio chip handle `h` (holding
the claimed TRIG and ECHO pins) and the gpiozero `AngularServo` object. -/
inductive Resource where
  | gpioChip
  | servoObj
  deriving DecidableEq, Repr

/-- The resources released by the `finally` block of `__main__`, which runs
exactly `GPIO.gpiochip_close(h)`. -/
def finallyCleanup : List Resource := [Resource.gpioChip]

/-! ## Helper lemmas about the sweep state machine -/

lemma sweepUpdate_stateClosedM :
    ∀ m : Nat, m < 72 → sweepUpdate (stateClosedM m) = stateClosedM ((m + 1) % 72) := by
  decide

lemma stateAt_closed (n : Nat) : stateAt n = stateClosedM (n % 72) := by
  induction n with
  | zero =>
      simp [stateAt, stateClosedM, initState]
  | succ n ih =>
      have hstep : stateAt (n + 1) = sweepUpdate (stateAt n) := by
        rw [stateAt, Function.iterate_succ_apply', stateAt]
      have hm : n % 72 < 72 := Nat.mod_lt _ (by norm_num)
      have hcl := sweepUpdate_stateClosedM (n % 72) hm
      rw [hstep, ih, hcl]
      congr 1
      omega

lemma angleAt_eq_closed (n : Nat) : angleAt n = angleClosed (n % 72) := by
  rw [angleAt, stateAt_closed]
  unfold stateClosedM angleClosed
  split_ifs <;> rfl

lemma angleClosed_bounds (m : Nat) (hm : m < 72) :
    0 ≤ angleClosed m ∧ angleClosed m ≤ 180 := by
  unfold angleClosed
  split_ifs with h <;> constructor <;> [positivity; omega; omega; omega]

lemma angleAt_bounds (n : Nat) : 0 ≤ angleAt n ∧ angleAt n ≤ 180 := by
  rw [angleAt_eq_closed]
  exact angleClosed_bounds _ (Nat.mod_lt _ (by norm_num))

lemma sweepUpdate_angle_bounds (s : SweepState) :
    0 ≤ (sweepUpdate s).angle ∧ (sweepUpdate s).angle ≤ 180 := by
  simp only [sweepUpdate, step]
  split_ifs with h1 h2
  all_goals simp
  omega

/-! ## Helper lemmas about the busy-wait model -/

lemma findEdge_none_of_from (r : Nat → Bool) (v : Bool) :
    ∀ fuel start, (∀ k, start ≤ k → r k ≠ v) → findEdge r v start fuel = none := by
  intro fuel
  induction fuel with
  | zero => intro start _; rfl
  | succ fuel ih =>
      intro start h
      have h0 : r start ≠ v := h start le_rfl
      show (if r start = v then some start else findEdge r v (start + 1) fuel) = none
      rw [if_neg h0]
      exact ih (start + 1) (fun k hk => h k (by omega))

lemma findEdge_some_le (r : Nat → Bool) (v : Bool) :
    ∀ fuel start j, findEdge r v start fuel = some j →
      start ≤ j ∧ j < start + fuel ∧ r j = v := by
  intro fuel
  induction fuel with
  | zero => intro start j h; exact absurd h (by simp [findEdge])
  | succ fuel ih =>
      intro start j h
      by_cases h0 : r start = v
      · simp only [findEdge, h0, if_pos] at h
        obtain rfl : start = j := by simpa using h
        exact ⟨le_rfl, by omega, h0⟩
      · simp only [findEdge, h0, if_neg, if_false] at h
        obtain ⟨h1, h2, h3⟩ := ih (start + 1) j h
        exact ⟨by omega, by omega, h3⟩

lemma findEdge_found (r : Nat → Bool) (v : Bool) :
    ∀ fuel start j, start ≤ j → j < start + fuel → r j = v →
      (∀ k, start ≤ k → k < j → r k ≠ v) → findEdge r v start fuel = some j := by
  intro fuel
  induction fuel with
  | zero => intro start j h1 h2; omega
  | succ fuel ih =>
      intro start j h1 h2 h3 h4
      by_cases h0 : start = j
      · subst h0
        simp [findEdge, h3]
      · have hne : r start ≠ v := h4 start le_rfl (by omega)
        simp only [findEdge, hne, if_neg, if_false]
        exact ih (start + 1) j (by omega) (by omega) h3 (fun k hk1 hk2 => h4 k (by omega) hk2)

lemma round2_nonneg (q : Rat) (h : 0 ≤ q) : 0 ≤ round2 q := by
  unfold round2
  apply div_nonneg _ (by norm_num)
  have h100 : (0 : Rat) ≤ q * 100 := by positivity
  have : (0 : Int) ≤ round (q * 100) := by
    rw [round_eq]
    exact Int.floor_nonneg.mpr (by linarith)
  exact_mod_cast this

/-! ## Helper lemmas about the connection-loop trace -/

lemma sweepRun_no_fail (durations : Nat → Rat) (sendFails : Nat → Bool) :
    ∀ fuel s n, (∀ k, k < fuel → sendFails (n + k) = false) →
      sweepRun durations sendFails s n fuel = (blocksFrom durations s n fuel, false) := by
  intro fuel
  induction fuel with
  | zero => intro s n _; rfl
  | succ fuel ih =>
      intro s n h
      have h0 : sendFails n = false := by simpa using h 0 (Nat.succ_pos _)
      have hrest := ih (sweepUpdate s) (n + 1) (fun k hk => by
        have hh := h (k + 1) (by omega)
        rw [show n + (k + 1) = n + 1 + k from by omega] at hh
        exact hh)
      simp [sweepRun, h0, hrest, blocksFrom, iterBlock]

lemma sweepRun_first_fail (durations : Nat → Rat) (sendFails : Nat → Bool) :
    ∀ fuel s n k, k < fuel → (∀ j, j < k → sendFails (n + j) = false) →
      sendFails (n + k) = true →
      sweepRun durations sendFails s n fuel =
        (blocksFrom durations s n k ++
          [Event.setServo (stateFrom s k).angle, Event.readDist], true) := by
  intro fuel
  induction fuel with
  | zero => intro s n k hk _ _; omega
  | succ fuel ih =>
      intro s n k hk hbefore hfail
      cases k with
      | zero =>
          have h0 : sendFails n = true := by simpa using hfail
          simp [sweepRun, h0, blocksFrom, stateFrom]
      | succ k =>
          have h0 : sendFails n = false := by simpa using hbefore 0 (Nat.succ_pos _)
          have hrest := ih (sweepUpdate s) (n + 1) k (by omega)
            (fun j hj => by
              have hh := hbefore (j + 1) (by omega)
              rw [show n + (j + 1) = n + 1 + j from by omega] at hh
              exact hh)
            (by rw [show n + 1 + k = n + (k + 1) from by omega]; exact hfail)
          simp [sweepRun, h0, hrest, blocksFrom, iterBlock, stateFrom,
            Function.iterate_succ_apply]

lemma sentMessages_sweepRun (durations : Nat → Rat) (sendFails : Nat → Bool) :
    ∀ fuel s n, 0 ≤ s.angle → s.angle ≤ 180 →
      ∀ m ∈ sentMessages (sweepRun durations sendFails s n fuel).1,
        ∃ a q, m = mkMessage a q ∧ 0 ≤ a ∧ a ≤ 180 ∧ ∃ z : Int, q = (z : Rat) / 100 := by
  intro fuel
  induction fuel with
  | zero =>
      intro s n _ _ m hm
      simp [sweepRun, sentMessages] at hm
  | succ fuel ih =>
      intro s n h1 h2 m hm
      by_cases hf : sendFails n
      · simp [sweepRun, hf, sentMessages] at hm
      · simp [sweepRun, hf, sentMessages] at hm
        rcases hm with rfl | hm
        · exact ⟨s.angle, round2 (durations n * 17150), rfl, h1, h2,
            round (durations n * 17150 * 100), rfl⟩
        · exact ih (sweepUpdate s) (n + 1) (sweepUpdate_angle_bounds s).1
            (sweepUpdate_angle_bounds s).2 m (List.mem_filterMap.mpr hm)

lemma setServo_mem_bounds (durations : Nat → Rat) (sendFails : Nat → Bool) :
    ∀ fuel s n a, 0 ≤ s.angle → s.angle ≤ 180 →
      Event.setServo a ∈ (sweepRun durations sendFails s n fuel).1 →
      0 ≤ a ∧ a ≤ 180 := by
  intro fuel
  induction fuel with
  | zero =>
      intro s n a _ _ hm
      simp [sweepRun] at hm
  | succ fuel ih =>
      intro s n a h1 h2 hm
      by_cases hf : sendFails n
      · simp [sweepRun, hf] at hm
        subst hm
        exact ⟨h1, h2⟩
      · simp [sweepRun, hf] at hm
        rcases hm with rfl | hm
        · exact ⟨h1, h2⟩
        · exact ih (sweepUpdate s) (n + 1) a (sweepUpdate_angle_bounds s).1
            (sweepUpdate_angle_bounds s).2 hm

lemma sentMessages_take_two (durations : Nat → Rat) (sendFails : Nat → Bool) (f : Nat)
    (h0 : sendFails 0 = false) (h1 : sendFails 1 = false) :
    (sentMessages (sweepRun durations sendFails initState 0 (f + 2)).1).take 2 =
      [mkMessage 0 (round2 (durations 0 * 17150)),
       mkMessage 5 (round2 (durations 1 * 17150))] := by
  have hup : sweepUpdate { angle := 0, direction := 1 } = { angle := 5, direction := 1 } := by
    decide
  show (sentMessages (sweepRun durations sendFails initState 0 (f + 1 + 1)).1).take 2 = _
  simp [sweepRun, h0, h1, hup, sentMessages, initState]

/-! ## Claims -/

/-- C1: the sequence of angles produced by the sweep loop (starting at angle
0, step 5, direction up) is a triangle wave with period 72: within a period
it strictly increases by the step size (5) until 180 is reached at phase 36,
then strictly decreases by the step size until 0 is reached at the end of
the period, and the pattern repeats indefinitely. -/
theorem sweep_triangle_wave :
    (∀ n : Nat, n % 72 < 36 → angleAt (n + 1) = angleAt n + 5) ∧
    (∀ n : Nat, 36 ≤ n % 72 → angleAt (n + 1) = angleAt n - 5) ∧
    (∀ n : Nat, angleAt n = 180 ↔ n % 72 = 36) ∧
    (∀ n : Nat, angleAt n = 0 ↔ n % 72 = 0) ∧
    (∀ n : Nat, angleAt (n + 72) = angleAt n) := by
  refine ⟨?_, ?_, ?_, ?_, ?_⟩
  · intro n h
    have h2 : (n + 1) % 72 = n % 72 + 1 := by omega
    rw [angleAt_eq_closed, angleAt_eq_closed, h2]
    unfold angleClosed
    split_ifs <;> omega
  · intro n h
    have hm : n % 72 < 72 := Nat.mod_lt _ (by norm_num)
    by_cases h71 : n % 72 = 71
    · have h2 : (n + 1) % 72 = 0 := by omega
      rw [angleAt_eq_closed, angleAt_eq_closed, h2, h71]
      unfold angleClosed
      split_ifs <;> omega
    · have h2 : (n + 1) % 72 = n % 72 + 1 := by omega
      rw [angleAt_eq_closed, angleAt_eq_closed, h2]
      unfold angleClosed
      split_ifs <;> omega
  · intro n
    have hm : n % 72 < 72 := Nat.mod_lt _ (by norm_num)
    rw [angleAt_eq_closed]
    unfold angleClosed
    split_ifs <;> omega
  · intro n
    have hm : n % 72 < 72 := Nat.mod_lt _ (by norm_num)
    rw [angleAt_eq_closed]
    unfold angleClosed
    split_ifs <;> omega
  · intro n
    rw [angleAt_eq_closed, angleAt_eq_closed]
    congr 1
    omega

/-- Witness for the triangle-wave theorem at concrete iterations. -/
theorem sweep_triangle_wave_witness :
    angleAt 1 = angleAt 0 + 5 ∧ angleAt 37 = angleAt 36 - 5 ∧
    angleAt 36 = 180 ∧ angleAt 72 = angleAt 0 :=
  ⟨sweep_triangle_wave.1 0 (by decide),
   sweep_triangle_wave.2.1 36 (by decide),
   (sweep_triangle_wave.2.2.1 36).2 (by decide),
   sweep_triangle_wave.2.2.2.2 0⟩

/-- C2: every angle assigned to the servo driver lies in [0, 180]: this
holds for the angle of every iteration, it is preserved (unconditionally,
by clamping) by the state update, and every `setServo` event of the
connection-loop trace carries a bounded angle. -/
theorem servo_angle_bounded :
    (∀ n : Nat, 0 ≤ angleAt n ∧ angleAt n ≤ 180) ∧
    (∀ s : SweepState, 0 ≤ (sweepUpdate s).angle ∧ (sweepUpdate s).angle ≤ 180) ∧
    (∀ (durations : Nat → Rat) (sendFails : Nat → Bool) (fuel : Nat) (a : Int),
      Event.setServo a ∈ (sweepRun durations sendFails initState 0 fuel).1 →
      0 ≤ a ∧ a ≤ 180) :=
  ⟨angleAt_bounds, sweepUpdate_angle_bounds,
   fun durations sendFails fuel a hmem =>
     setServo_mem_bounds durations sendFails fuel initState 0 a
       (by norm_num [initState]) (by norm_num [initState]) hmem⟩

/-- Witness for the servo-angle bound at the first `setServo` event. -/
theorem servo_angle_bounded_witness : (0 : Int) ≤ 0 ∧ (0 : Int) ≤ 180 :=
  servo_angle_bounded.2.2 (fun _ => 0) (fun _ => false) 1 0 (by decide)

/-- C3: the distance returned by `get_distance` is a pure function of the
measured pulse duration, namely `round(duration * 17150, 2)`; and for a
pulse duration of exactly 1 ms the result is 17.15 cm. -/
theorem get_distance_pure_of_duration :
    (∀ (r : Nat → Bool) (clock : Nat → Rat) (fuel i j : Nat),
      findEdge r true 0 fuel = some i → findEdge r false (i + 1) fuel = some j →
      get_distance r clock fuel = some (round2 ((clock j - clock i) * 17150))) ∧
    round2 ((1 / 1000 : Rat) * 17150) = 1715 / 100 := by
  constructor
  · intro r clock fuel i j h1 h2
    simp only [get_distance, h1, h2]
  · have h : ((1 : Rat) / 1000 * 17150) * 100 = ((1715 : Int) : Rat) := by norm_num
    rw [round2, h, round_intCast]
    norm_num

/-- Witness: a concrete echo trace with a 1 ms pulse (`clock` in seconds)
yields the pure-function value. -/
theorem get_distance_pure_of_duration_witness :
    get_distance (fun k => k == 0) (fun k => (k : Rat) / 1000) 3 =
      some (round2 ((((1 : Nat) : Rat) / 1000 - ((0 : Nat) : Rat) / 1000) * 17150)) :=
  get_distance_pure_of_duration.1 (fun k => k == 0) (fun k => (k : Rat) / 1000) 3 0 1
    (by decide) (by decide)

/-- C4: every message sent over the connection is a JSON object with exactly
the keys "angle" and "distance", in which the angle value is an integer in
[0, 180] and the distance value is a rational with exactly two decimal
places. -/
theorem messages_well_formed :
    (∀ (a : Int) (q : Rat), (mkMessage a q).map Prod.fst = ["angle", "distance"]) ∧
    (∀ (durations : Nat → Rat) (sendFails : Nat → Bool) (fuel : Nat) (m : Message),
      m ∈ sentMessages (sweepRun durations sendFails initState 0 fuel).1 →
      ∃ a q, m = mkMessage a q ∧ 0 ≤ a ∧ a ≤ 180 ∧ ∃ z : Int, q = (z : Rat) / 100) :=
  ⟨fun _ _ => rfl,
   fun durations sendFails fuel m hm =>
     sentMessages_sweepRun durations sendFails fuel initState 0
       (by norm_num [initState]) (by norm_num [initState]) m hm⟩

/-- Witness: the first message of a concrete run is well formed. -/
theorem messages_well_formed_witness :
    ∃ a q, mkMessage 0 (round2 (0 * 17150)) = mkMessage a q ∧ 0 ≤ a ∧ a ≤ 180 ∧
      ∃ z : Int, q = (z : Rat) / 100 :=
  messages_well_formed.2 (fun _ => 0) (fun _ => false) 1
    (mkMessage 0 (round2 (0 * 17150))) (List.mem_cons_self _ _)

/-- C5: when the peer closes the connection mid-loop, `handler` exits the
sweep loop, logs "Client disconnected", and returns normally; any other
exception propagates to the caller (the connection-closed error is the only
one handled); in particular no exception arising from the sweep loop ever
propagates. -/
theorem handler_catches_only_connection_closed :
    handlerExc (some Exc.connectionClosed) =
      (["Client connected", "Client disconnected"], none) ∧
    (∀ e : Exc, e ≠ Exc.connectionClosed → (handlerExc (some e)).2 = some e) ∧
    (∀ (durations : Nat → Rat) (sendFails : Nat → Bool) (fuel : Nat),
      (handlerExc (sweepExc durations sendFails fuel)).2 = none) := by
  refine ⟨rfl, ?_, ?_⟩
  · intro e he
    cases e
    · exact absurd rfl he
    · rfl
  · intro durations sendFails fuel
    unfold sweepExc
    split_ifs <;> rfl

/-- Witness: an exception other than `ConnectionClosed` is propagated. -/
theorem handler_catches_only_connection_closed_witness :
    (handlerExc (some Exc.other)).2 = some Exc.other :=
  handler_catches_only_connection_closed.2.1 Exc.other (by decide)

/-- C6 counterexample: not every hardware resource is released by the
guaranteed cleanup step. The `finally` block of `__main__` runs only
`GPIO.gpiochip_close(h)`; the servo object is not among the resources it
releases. -/
theorem cleanup_omits_servo : ¬ (∀ res : Resource, res ∈ finallyCleanup) := by
  intro hall
  exact absurd (hall Resource.servoObj) (by decide)

/-- C6 amended: on every shutdown path the guaranteed cleanup step (the
`finally` block) releases the GPIO chip handle for the sensor pins, but the
servo object is not released by any explicit cleanup step. -/
theorem cleanup_releases_gpio_chip_only :
    Resource.gpioChip ∈ finallyCleanup ∧ Resource.servoObj ∉ finallyCleanup := by
  decide

/-- C7: on an echo-line trace where the awaited transition never occurs,
`get_distance` never returns (it yields `none` for every poll budget): both
when the echo never goes high and when, once high, it never goes low; and
when both transitions occur, `get_distance` terminates with a reading. -/
theorem get_distance_busy_wait (r : Nat → Bool) (clock : Nat → Rat) :
    ((∀ k, r k = false) → ∀ fuel, get_distance r clock fuel = none) ∧
    ((∀ k j, k ≤ j → r k = true → r j = true) → ∀ fuel, get_distance r clock fuel = none) ∧
    ((∃ i, r i = true ∧ ∃ j, i < j ∧ r j = false) →
      ∃ fuel d, get_distance r clock fuel = some d) := by
  refine ⟨?_, ?_, ?_⟩
  · intro h fuel
    have h1 : findEdge r true 0 fuel = none :=
      findEdge_none_of_from r true fuel 0 (fun k _ => by simp [h k])
    simp only [get_distance, h1]
  · intro h fuel
    cases hf : findEdge r true 0 fuel with
    | none => simp only [get_distance, hf]
    | some i =>
        obtain ⟨-, -, hri⟩ := findEdge_some_le r true fuel 0 i hf
        have h2 : findEdge r false (i + 1) fuel = none :=
          findEdge_none_of_from r false fuel (i + 1) (fun k hk => by
            have hk2 : r k = true := h i k (by omega) hri
            simp [hk2])
        simp only [get_distance, hf, h2]
  · rintro ⟨i, hi, j, hij, hj⟩
    have hex : ∃ k, r k = true := ⟨i, hi⟩
    have hri0 : r (Nat.find hex) = true := Nat.find_spec hex
    have hi0min : ∀ k, k < Nat.find hex → r k ≠ true := fun k hk => Nat.find_min hex hk
    have hi0le : Nat.find hex ≤ i := Nat.find_min' hex hi
    have hex2 : ∃ k, r k = false ∧ Nat.find hex + 1 ≤ k := ⟨j, hj, by omega⟩
    have hj0spec : r (Nat.find hex2) = false ∧ Nat.find hex + 1 ≤ Nat.find hex2 :=
      Nat.find_spec hex2
    have hj0min : ∀ k, k < Nat.find hex2 → ¬(r k = false ∧ Nat.find hex + 1 ≤ k) :=
      fun k hk => Nat.find_min hex2 hk
    have hij0 : Nat.find hex + 1 ≤ Nat.find hex2 := hj0spec.2
    refine ⟨Nat.find hex2 + 1,
      round2 ((clock (Nat.find hex2) - clock (Nat.find hex)) * 17150), ?_⟩
    have hfind1 : findEdge r true 0 (Nat.find hex2 + 1) = some (Nat.find hex) :=
      findEdge_found r true (Nat.find hex2 + 1) 0 (Nat.find hex) (by omega) (by omega)
        hri0 (fun k hk1 hk2 => hi0min k hk2)
    have hfind2 : findEdge r false (Nat.find hex + 1) (Nat.find hex2 + 1) =
        some (Nat.find hex2) :=
      findEdge_found r false (Nat.find hex2 + 1) (Nat.find hex + 1) (Nat.find hex2)
        (by omega) (by omega) hj0spec.1
        (fun k hk1 hk2 hkf => hj0min k hk2 ⟨hkf, hk1⟩)
    simp only [get_distance, hfind1, hfind2]

/-- Witness: an always-low echo blocks, an always-high echo blocks, and a
single 1-poll pulse terminates. -/
theorem get_distance_busy_wait_witness :
    get_distance (fun _ => false) (fun _ => 0) 5 = none ∧
    get_distance (fun _ => true) (fun _ => 0) 5 = none ∧
    ∃ fuel d, get_distance (fun k => k == 0) (fun _ => 0) fuel = some d :=
  ⟨(get_distance_busy_wait (fun _ => false) (fun _ => 0)).1 (fun _ => rfl) 5,
   (get_distance_busy_wait (fun _ => true) (fun _ => 0)).2.1 (fun _ _ _ _ => rfl) 5,
   (get_distance_busy_wait (fun k => k == 0) (fun _ => 0)).2.2 ⟨0, rfl, 1, by decide, rfl⟩⟩

/-- C8: each iteration of the connection loop performs, in order, set servo
angle, read distance, send the serialized reading, sleep (the `iterBlock`
shape), repeating while sends succeed; at the first failing send the loop
stops after the servo write and distance read of that iteration, raising the
disconnect, and the handler returns normally. -/
theorem loop_iteration_structure (durations : Nat → Rat) (sendFails : Nat → Bool) :
    (∀ fuel s n, (∀ k, k < fuel → sendFails (n + k) = false) →
      sweepRun durations sendFails s n fuel = (blocksFrom durations s n fuel, false)) ∧
    (∀ fuel s n k, k < fuel → (∀ j, j < k → sendFails (n + j) = false) →
      sendFails (n + k) = true →
      sweepRun durations sendFails s n fuel =
        (blocksFrom durations s n k ++
          [Event.setServo (stateFrom s k).angle, Event.readDist], true)) ∧
    (∀ fuel : Nat, (handlerExc (sweepExc durations sendFails fuel)).2 = none) := by
  refine ⟨sweepRun_no_fail durations sendFails, sweepRun_first_fail durations sendFails, ?_⟩
  intro fuel
  unfold sweepExc
  split_ifs <;> rfl

/-- Witness: with the send failing first at iteration 1, a 3-iteration run
is one complete block followed by the truncated second iteration. -/
theorem loop_iteration_structure_witness :
    sweepRun (fun _ => 0) (fun n => n == 1) initState 0 3 =
      (blocksFrom (fun _ => 0) initState 0 1 ++
        [Event.setServo (stateFrom initState 1).angle, Event.readDist], true) :=
  (loop_iteration_structure (fun _ => 0) (fun n => n == 1)).2.1 3 initState 0 1
    (by decide) (by decide) (by decide)

/-- C9: sweep state is per-connection, not shared: for any sequence of
accepted connections, the trace of the `i`-th connection depends only on its
own environment, its first message has angle 0, and its second message has
angle 5 (the sweep starts moving upward), regardless of the connections
handled before. -/
theorem sweep_state_per_connection (conns : List Conn) (i : Nat) (h : i < conns.length)
    (hfuel : 2 ≤ (conns.getD i default).2.2)
    (h0 : (conns.getD i default).2.1 0 = false)
    (h1 : (conns.getD i default).2.1 1 = false) :
    (serverTraces conns).getD i [] = connTrace (conns.getD i default) ∧
    (sentMessages ((serverTraces conns).getD i [])).take 2 =
      [mkMessage 0 (round2 ((conns.getD i default).1 0 * 17150)),
       mkMessage 5 (round2 ((conns.getD i default).1 1 * 17150))] := by
  have h2 : i < (serverTraces conns).length := by simpa [serverTraces] using h
  have hmap : (serverTraces conns).getD i [] = connTrace (conns.getD i default) := by
    rw [List.getD_eq_getElem?_getD, List.getD_eq_getElem?_getD,
      List.getElem?_eq_getElem h2, List.getElem?_eq_getElem h]
    simp [serverTraces]
  refine ⟨hmap, ?_⟩
  rw [hmap]
  obtain ⟨f, hf⟩ := Nat.exists_eq_add_of_le hfuel
  rw [Nat.add_comm] at hf
  unfold connTrace
  rw [hf]
  exact sentMessages_take_two _ _ f h0 h1

/-- Witness: the second of two connections still starts at angle 0 and
moves up to 5. -/
theorem sweep_state_per_connection_witness :
    (sentMessages ((serverTraces
        [((fun _ => (0 : Rat)), (fun _ => false), 2),
         ((fun _ => (1 : Rat)), (fun _ => false), 3)]).getD 1 [])).take 2 =
      [mkMessage 0 (round2 ((1 : Rat) * 17150)),
       mkMessage 5 (round2 ((1 : Rat) * 17150))] :=
  (sweep_state_per_connection
    [((fun _ => (0 : Rat)), (fun _ => false), 2),
     ((fun _ => (1 : Rat)), (fun _ => false), 3)]
    1 (by decide) (by decide) rfl rfl).2

/-- C10: if the wall clock is monotone non-decreasing across the calls
inside `get_distance`, the measured pulse duration is non-negative and hence
every returned distance is non-negative. -/
theorem get_distance_nonneg (r : Nat → Bool) (clock : Nat → Rat)
    (hmono : ∀ a b : Nat, a ≤ b → clock a ≤ clock b) :
    ∀ (fuel : Nat) (d : Rat), get_distance r clock fuel = some d → 0 ≤ d := by
  intro fuel d hd
  cases hf1 : findEdge r true 0 fuel with
  | none =>
      simp only [get_distance, hf1] at hd
      exact Option.noConfusion hd
  | some i =>
      cases hf2 : findEdge r false (i + 1) fuel with
      | none =>
          simp only [get_distance, hf1, hf2] at hd
          exact Option.noConfusion hd
      | some j =>
          simp only [get_distance, hf1, hf2, Option.some_inj] at hd
          obtain ⟨hle, -, -⟩ := findEdge_some_le r false fuel (i + 1) j hf2
          have hcl : clock i ≤ clock j := hmono i j (by omega)
          have hnn : (0 : Rat) ≤ (clock j - clock i) * 17150 := by
            apply mul_nonneg
            · linarith
            · norm_num
          rw [← hd]
          exact round2_nonneg _ hnn

/-- Witness: a monotone clock on a concrete 1-poll pulse gives a
non-negative reading. -/
theorem get_distance_nonneg_witness :
    (0 : Rat) ≤ round2 ((((1 : Nat) : Rat) - ((0 : Nat) : Rat)) * 17150) :=
  get_distance_nonneg (fun k => k == 0) (fun k => (k : Rat))
    (fun _ _ hab => Nat.cast_le.mpr hab) 3
    (round2 ((((1 : Nat) : Rat) - ((0 : Nat) : Rat)) * 17150)) rfl
